import Mathlib

/-!
# Verification of the UNITE client-side request lifecycle layer

A shallow embedding, in Lean 4, of the permission utilities, the v2 service
layer, the reviewers cache, the feature-flag store, the authenticated fetch
gateway, and the declarative allowed-actions walker of the UNITE frontend,
together with theorems settling the specification claims about them.

Conventions used throughout the embedding:
* JavaScript `undefined` / `null` optional values become `Option _`.
* JavaScript string truthiness (`""` is falsy) is modelled explicitly where
  the source relies on it (`jsTruthy`, `jsOrStr`, ...).
* JavaScript arrays become `List _`; `Array.prototype.includes` becomes
  `List.contains` / membership.
* Machine integers in the sources (timestamps, HTTP status codes, page
  numbers) stay well inside 2^53, so they are modelled as `Nat` directly.
-/

namespace Unite

/-- JS string truthiness for an optional string: `undefined`/`null` and the
empty string are falsy, every other string is truthy. -/
def jsTruthy : Option String → Bool
  | some s => s ≠ ""
  | none => false

/-- JS number truthiness for an optional number: `undefined`/`null` and `0`
are falsy. -/
def jsTruthyNat : Option Nat → Bool
  | some n => n ≠ 0
  | none => false

/-- JS `a || b` on two string-or-null values: returns `a` when `a` is truthy
(non-empty), otherwise `b`. -/
def jsOrStr (a b : Option String) : Option String :=
  match a with
  | some s => if s = "" then b else some s
  | none => b

/-- JS `a || d` where `d` is a (string) literal default: returns `a` when `a`
is a truthy (non-empty) string, otherwise the default. -/
def jsOrDefault (a : Option String) (d : String) : String :=
  match a with
  | some s => if s = "" then d else s
  | none => d

/-- Character-level splitter backing `jsSplit`: splits a character list at
every occurrence of the separator; always returns at least one piece. -/
def splitChars (sep : Char) : List Char → List (List Char)
  | [] => [[]]
  | x :: xs =>
    match splitChars sep xs with
    | [] => [[]]
    | h :: t => if x = sep then [] :: h :: t else (x :: h) :: t

/-- JS `s.split(sep)` for a one-character separator (e.g. `split('.')`). -/
def jsSplit (s : String) (sep : Char) : List String :=
  (splitChars sep s.toList).map String.mk

/-- JS `s.includes(c)` for a one-character needle. -/
def jsIncludesChar (s : String) (c : Char) : Bool :=
  s.toList.contains c

/-- JS `s.toLowerCase()` (ASCII-faithful; every string the sources compare
against is ASCII). -/
def jsToLowerCase (s : String) : String :=
  String.mk (s.toList.map Char.toLower)

/-- JS `s.trim()`: strip whitespace from both ends. -/
def jsTrim (s : String) : String :=
  String.mk (((s.toList.dropWhile Char.isWhitespace).reverse.dropWhile
    Char.isWhitespace).reverse)

/-! ## Permission utilities (source: `permissionUtils`, src/unnamed/part_007)

`hasCapability`, `canPerformRequestActionV2` and `getAvailableActionsV2`,
embedded from the source.  Permission entries are proper objects (the
source's `!perm` null guard cannot fire in this model); a missing
`permissions` / `roles` array is an `Option.none`.  A `permissions` field
holding an empty array is `some []`, which — like the empty array in JS —
is truthy and therefore selects the permissions branch. -/

/-- One entry of a user's `permissions` array: a resource plus an action
list (source `part_007`, `UserWithPermissions.permissions`). -/
structure Permission where
  resource : String
  actions : List String
deriving DecidableEq, Repr

/-- A role carried by a user; simplified role objects may lack the
`permissions` property, hence the `Option` (source `part_007`). -/
structure Role where
  permissions : Option (List Permission)
deriving DecidableEq, Repr

/-- A user as consumed by the permission utilities (source `part_007`,
`UserWithPermissions`). -/
structure UserWithPermissions where
  permissions : Option (List Permission)
  roles : Option (List Role)
deriving DecidableEq, Repr

/-- The per-entry match performed inside `hasCapability`'s `some` callbacks
(source `part_007` lines 41-55 and 66-78): skip entries with a falsy
resource, then match a wildcard resource or the exact resource, paired with
a wildcard action or the exact action. -/
def permEntryAllows (resource action : String) (perm : Permission) : Bool :=
  if perm.resource = "" then false
  else if perm.resource = "*" && (perm.actions.contains "*" || perm.actions.contains action) then
    true
  else if perm.resource = resource && (perm.actions.contains "*" || perm.actions.contains action) then
    true
  else false

/-- `hasCapability(user, capability)` (source `part_007` lines 23-83):
reject capabilities without a dot, split on `.` into resource/action, check
the `permissions` array when present, otherwise fall back to role
permissions. -/
def hasCapability (user : UserWithPermissions) (capability : String) : Bool :=
  if capability = "" || !(jsIncludesChar capability '.') then false
  else
    let parts := jsSplit capability '.'
    let resource := parts.headD ""
    let action := (parts.drop 1).headD ""
    match user.permissions with
    | some perms => perms.any (permEntryAllows resource action)
    | none =>
      match user.roles with
      | some roles =>
        roles.any fun role =>
          match role.permissions with
          | some perms => perms.any (permEntryAllows resource action)
          | none => false
      | none => false

/-- The fixed action → required-capability table of
`canPerformRequestActionV2` (source `part_007` lines 286-293). -/
def actionCapabilityMap : List (String × String) :=
  [("accept", "request.review"),
   ("reject", "request.review"),
   ("reschedule", "request.update"),
   ("confirm", "request.update"),
   ("decline", "request.update"),
   ("cancel", "request.cancel")]

/-- `canPerformRequestActionV2(user, action)` (source `part_007` lines
276-301): look the action up in the capability table and defer to
`hasCapability`; unknown actions are denied. -/
def canPerformRequestActionV2 (user : UserWithPermissions) (action : String) : Bool :=
  match actionCapabilityMap.lookup action with
  | none => false
  | some requiredCapability => hasCapability user requiredCapability

/-- The slice of a request record that `getAvailableActionsV2` inspects:
only its `status` field (which may be absent). -/
structure RequestV2 where
  status : Option String
deriving DecidableEq, Repr

/-- `nonCancellableStatuses` (source `part_007` line 359). -/
def nonCancellableStatuses : List String := ["cancelled", "rejected", "completed"]

/-- `getAvailableActionsV2(user, request)` (source `part_007` lines
328-370).  A `none` request models the `!request` early return; the status
is lowercased (`request.status?.toLowerCase()`) and compared against the
literal strings of the source. -/
def getAvailableActionsV2 (user : UserWithPermissions) (request : Option RequestV2) :
    List String :=
  match request with
  | none => []
  | some req =>
    let status : Option String := req.status.map jsToLowerCase
    let actions : List String := []
    let actions := actions ++
      (if status = some "pending_approval" || status = some "pending review" then
        (if canPerformRequestActionV2 user "accept" then ["accept"] else []) ++
        (if canPerformRequestActionV2 user "reject" then ["reject"] else [])
      else [])
    let actions := actions ++
      (if status = some "reschedule_requested" || status = some "pending_reschedule" then
        (if canPerformRequestActionV2 user "confirm" then ["confirm"] else []) ++
        (if canPerformRequestActionV2 user "decline" then ["decline"] else [])
      else [])
    let actions := actions ++
      (if !(match status with
            | some s => nonCancellableStatuses.contains s
            | none => false) &&
          canPerformRequestActionV2 user "cancel" then ["cancel"] else [])
    let actions := actions ++
      (if status = some "approved" && canPerformRequestActionV2 user "reschedule" then
        ["reschedule"] else [])
    actions

/-- The status-gated candidate-action table, written down from the spec's
§4.4 rules but using the status spellings the code actually recognizes, for
comparison against `getAvailableActionsV2` (refinement statement). -/
def candidateActions (status : Option String) : List String :=
  (if status = some "pending_approval" || status = some "pending review" then
    ["accept", "reject"] else []) ++
  (if status = some "reschedule_requested" || status = some "pending_reschedule" then
    ["confirm", "decline"] else []) ++
  (if !(match status with
        | some s => nonCancellableStatuses.contains s
        | none => false) then ["cancel"] else []) ++
  (if status = some "approved" then ["reschedule"] else [])

/-- The lowercase status spellings that `getAvailableActionsV2` gives a
status-specific branch (beyond the cancel fallthrough). -/
def recognizedActionStatuses : List String :=
  ["pending_approval", "pending review", "reschedule_requested", "pending_reschedule",
   "approved"]

/-- A viewer holding only `request.review` (spec §8 test 5's second
capability set). -/
def reviewUser : UserWithPermissions :=
  { permissions := some [{ resource := "request", actions := ["review"] }], roles := none }

/-- A viewer holding the full wildcard permission set
`[\x7bresource: "*", actions: ["*"]\x7d]`. -/
def starUser : UserWithPermissions :=
  { permissions := some [{ resource := "*", actions := ["*"] }], roles := none }

/-- A viewer holding only `request.update`. -/
def updateUser : UserWithPermissions :=
  { permissions := some [{ resource := "request", actions := ["update"] }], roles := none }

/-! ## v2 service layer (source: src/services/eventRequestsV2Service.ts)

`handleV2Response`, the query building of `fetchEventRequestsV2`, and
`executeRequestActionV2`.  The network is passed in explicitly: a service
function receives the envelope the transport would deliver and reports how
many transport calls it made, so "zero network calls" is a statement about
the returned call count. -/

/-- The standardized v2 envelope `{success, message?, data?}` (source
`eventRequestsV2Service.ts` lines 27-37; `pagination` is irrelevant to the
claims and omitted).  `data : Option α` keeps `data: undefined`
representable. -/
structure V2ApiResponse (α : Type) where
  success : Bool
  message : Option String
  data : Option α
deriving DecidableEq, Repr

/-- `handleV2Response(response)` (source lines 147-152): throw
`response.message || 'API request failed'` when `success` is false,
otherwise return `response.data`. -/
def handleV2Response {α : Type} (response : V2ApiResponse α) : Except String (Option α) :=
  if !response.success then
    Except.error (jsOrDefault response.message "API request failed")
  else
    Except.ok response.data

/-- `V2RequestFilters` (source lines 87-97): every key optional. -/
structure V2RequestFilters where
  status : Option String := none
  organizationId : Option String := none
  coverageAreaId : Option String := none
  municipalityId : Option String := none
  district : Option String := none
  province : Option String := none
  category : Option String := none
  page : Option Nat := none
  limit : Option Nat := none
deriving DecidableEq, Repr

/-- One `if (filters.k) params.set('k', filters.k)` step for a string
filter (source lines 171-177): appended only when the value is truthy
(present and non-empty). -/
def appendStrParam (params : List (String × String)) (key : String) (v : Option String) :
    List (String × String) :=
  match v with
  | some s => if s = "" then params else params ++ [(key, s)]
  | none => params

/-- One `if (filters.k) params.set('k', String(filters.k))` step for a
numeric filter (source lines 178-179): `0` is falsy and dropped. -/
def appendNumParam (params : List (String × String)) (key : String) (v : Option Nat) :
    List (String × String) :=
  match v with
  | some n => if n = 0 then params else params ++ [(key, toString n)]
  | none => params

/-- The `URLSearchParams` built by `fetchEventRequestsV2` (source lines
169-179), as an ordered key/value list; all nine keys are distinct so the
`set` sequence is a plain append sequence. -/
def buildQueryParamsV2 (filters : V2RequestFilters) : List (String × String) :=
  let params : List (String × String) := []
  let params := appendStrParam params "status" filters.status
  let params := appendStrParam params "organizationId" filters.organizationId
  let params := appendStrParam params "coverageAreaId" filters.coverageAreaId
  let params := appendStrParam params "municipalityId" filters.municipalityId
  let params := appendStrParam params "district" filters.district
  let params := appendStrParam params "province" filters.province
  let params := appendStrParam params "category" filters.category
  let params := appendNumParam params "page" filters.page
  let params := appendNumParam params "limit" filters.limit
  params

/-- `params.toString()`: `k=v` pairs joined by `&` (the filter values in the
claims need no percent-encoding). -/
def renderQuery (params : List (String × String)) : String :=
  String.intercalate "&" (params.map fun p => p.1 ++ "=" ++ p.2)

/-- The nine recognized filter keys, in the order the source sets them. -/
def recognizedFilterKeys : List String :=
  ["status", "organizationId", "coverageAreaId", "municipalityId", "district",
   "province", "category", "page", "limit"]

/-- Whether a recognized filter key holds a meaningful (JS-truthy) value in
a filter object — the spec-side characterization of which keys may appear
in the query string. -/
def filterKeyMeaningful (filters : V2RequestFilters) : String → Bool
  | "status" => jsTruthy filters.status
  | "organizationId" => jsTruthy filters.organizationId
  | "coverageAreaId" => jsTruthy filters.coverageAreaId
  | "municipalityId" => jsTruthy filters.municipalityId
  | "district" => jsTruthy filters.district
  | "province" => jsTruthy filters.province
  | "category" => jsTruthy filters.category
  | "page" => jsTruthyNat filters.page
  | "limit" => jsTruthyNat filters.limit
  | _ => false

/-- The action payload `{action, note?, proposedDate?}` (source lines
119-123). -/
structure V2RequestAction where
  action : String
  note : Option String := none
  proposedDate : Option String := none
deriving DecidableEq, Repr

/-- `executeRequestActionV2(requestId, actionPayload)` (source lines
265-292).  `transport` is the envelope the network would return for the
POST; the second component counts transport calls, so the reschedule
precondition failing with count `0` is exactly "rejects before any network
call". -/
def executeRequestActionV2 {α : Type} (requestId : String) (actionPayload : V2RequestAction)
    (transport : V2ApiResponse α) : Except String (Option α) × Nat :=
  if actionPayload.action = "reschedule" && !(jsTruthy actionPayload.proposedDate) then
    (Except.error "proposedDate is required for reschedule action", 0)
  else
    let _ := requestId  -- used only to build the URL in the source
    let response := transport
    if !response.success then
      (Except.error
        (jsOrDefault response.message ("Failed to execute action: " ++ actionPayload.action)), 1)
    else
      (handleV2Response response, 1)

/-! ## Action-execution hook (source: src/hooks/useRequestActionsV2.ts) -/

/-- `ExecuteActionOptions` (source lines 28-31). -/
structure ExecuteActionOptions where
  note : Option String := none
  proposedDate : Option String := none
deriving DecidableEq, Repr

/-- The observable outcome of one `executeAction` call: the settled
promise, the hook's final `error` state, its final `loading` state, the
number of transport calls, and the custom events dispatched. -/
structure HookOutcome (α : Type) where
  result : Except String (Option α)
  errorState : Option String
  loadingState : Bool
  transportCalls : Nat
  eventsDispatched : List String
deriving Repr

/-- `executeAction(requestId, action, options)` of `useRequestActionsV2`
(source lines 73-146): validate id, action, and the reschedule
precondition; call `executeRequestActionV2`; on success invalidate cache
and dispatch the two events; on any throw set `error` to
`err.message || 'Failed to execute action: ...'` and rethrow; `loading` is
reset in the `finally`. -/
def executeAction {α : Type} (requestId action : String) (options : ExecuteActionOptions)
    (transport : V2ApiResponse α) : HookOutcome α :=
  if requestId = "" then
    { result := Except.error "Request ID is required",
      errorState := some "Request ID is required",
      loadingState := false, transportCalls := 0, eventsDispatched := [] }
  else if action = "" then
    { result := Except.error "Action is required",
      errorState := some "Action is required",
      loadingState := false, transportCalls := 0, eventsDispatched := [] }
  else if action = "reschedule" && !(jsTruthy options.proposedDate) then
    { result := Except.error "Proposed date is required for reschedule action",
      errorState := some "Proposed date is required for reschedule action",
      loadingState := false, transportCalls := 0, eventsDispatched := [] }
  else
    match executeRequestActionV2 requestId
        { action := action, note := options.note, proposedDate := options.proposedDate }
        transport with
    | (Except.error msg, n) =>
      { result := Except.error msg,
        errorState := some (if msg = "" then "Failed to execute action: " ++ action else msg),
        loadingState := false, transportCalls := n, eventsDispatched := [] }
    | (Except.ok d, n) =>
      { result := Except.ok d,
        errorState := none,
        loadingState := false, transportCalls := n,
        eventsDispatched := ["unite:requests-changed", "unite:force-refresh-requests"] }

/-! ## Authenticated fetch gateway (source: src/utils/fetchWithAuth.ts)

The post-response half of `fetchJsonWithAuth` (lines 78-152), which decides
what error to throw for a non-2xx response and whether to clear credentials
and schedule a redirect. -/

/-- The HTTP response metadata the error path inspects.  `res.ok` is the
Fetch-standard 2xx test and is derived from the status. -/
structure HttpResponse where
  status : Nat
  statusText : String
deriving DecidableEq, Repr

/-- Fetch's `Response.ok`: status in the inclusive range 200-299. -/
def HttpResponse.ok (r : HttpResponse) : Bool :=
  200 ≤ r.status && r.status ≤ 299

/-- The parsed JSON body as far as the gateway reads it (`body.message`,
`body.error`); a body that failed to parse is `{}`, i.e. both `none`. -/
structure ParsedBody where
  message : Option String := none
  error : Option String := none
deriving DecidableEq, Repr

/-- The two client-side credential slots
(`localStorage`/`sessionStorage` `unite_token`). -/
structure AuthStorage where
  localToken : Option String := none
  sessionToken : Option String := none
deriving DecidableEq, Repr

/-- `localStorage.getItem("unite_token") || sessionStorage.getItem("unite_token")`
(source lines 101-105). -/
def storedToken (s : AuthStorage) : Option String :=
  jsOrStr s.localToken s.sessionToken

/-- The error object `fetchJsonWithAuth` throws for a non-2xx response
(source lines 90-98): message, HTTP status, parsed body, and the auth-error
flag (false models the JS `undefined` of the non-401/403 case). -/
structure FetchError where
  message : String
  status : Nat
  body : ParsedBody
  isAuthError : Bool
deriving DecidableEq, Repr

/-- The observable outcome of `fetchJsonWithAuth` after the response
arrived: the settled promise, whether `clearAuthTokens()` ran, and the
target of a scheduled redirect, if any. -/
structure FetchJsonOutcome where
  result : Except FetchError ParsedBody
  clearedTokens : Bool
  redirectedTo : Option String
deriving Repr

/-- JS `s.includes(sub)` specialized to the two lowercase needles the
gateway greps for; `List.isInfix` is decidable, mirroring substring
search. -/
def jsIncludesSub (s sub : String) : Bool :=
  decide (sub.toList <:+: s.toList)

/-- The response-handling half of `fetchJsonWithAuth(input, init)` (source
lines 82-151), given the response, its parsed body, the storage state, and
the current `window.location.pathname`. -/
def fetchJsonWithAuth (res : HttpResponse) (body : ParsedBody) (storage : AuthStorage)
    (pathname : String) : FetchJsonOutcome :=
  if res.ok then
    { result := Except.ok body, clearedTokens := false, redirectedTo := none }
  else
    let msg : String :=
      jsOrDefault (jsOrStr (jsOrStr body.message body.error) (some res.statusText))
        "Request failed"
    let isAuth : Bool := res.status = 401 || res.status = 403
    let err : FetchError :=
      { message := msg, status := res.status, body := body, isAuthError := isAuth }
    if isAuth then
      let token := storedToken storage
      let hasToken : Bool := jsTruthy token
      if hasToken then
        let isPermissionError : Bool :=
          res.status = 403 ||
            (msg ≠ "" &&
              (jsIncludesSub (jsToLowerCase msg) "permission denied" ||
                jsIncludesSub (jsToLowerCase msg) "permission"))
        if res.status = 401 && !isPermissionError then
          { result := Except.error err, clearedTokens := true,
            redirectedTo :=
              if pathname.startsWith "/auth" then none else some "/auth/signin" }
        else
          { result := Except.error err, clearedTokens := false, redirectedTo := none }
      else
        { result := Except.error err, clearedTokens := false, redirectedTo := none }
    else
      { result := Except.error err, clearedTokens := false, redirectedTo := none }

/-! ## Reviewers cache (source: `useValidReviewersV2`, src/unnamed/part_003)

The module-level `reviewersCache : Map<string, CacheEntry>` and the
`fetchReviewers` flow that reads it, lines 48-139.  Reviewer payloads are
abstracted to lists of reviewer ids; timestamps are milliseconds. -/

/-- `CacheEntry` of the reviewers cache (source lines 48-51). -/
structure CacheEntry where
  data : List String
  timestamp : Nat
deriving DecidableEq, Repr

/-- `CACHE_TTL = 5 * 60 * 1000` (source line 53). -/
def CACHE_TTL : Nat := 5 * 60 * 1000

/-- The `reviewersCache` map, as an insertion-ordered association list
(a JS `Map` has unique keys). -/
abbrev ReviewersCache := List (String × CacheEntry)

/-- `Map.get`. -/
def cacheGet (cache : ReviewersCache) (key : String) : Option CacheEntry :=
  cache.lookup key

/-- `Map.set`: replace in place when the key exists, else append. -/
def cacheSet (cache : ReviewersCache) (key : String) (entry : CacheEntry) : ReviewersCache :=
  if (cache.lookup key).isSome then
    cache.map fun p => if p.1 = key then (key, entry) else p
  else
    cache ++ [(key, entry)]

/-- The observable outcome of one `fetchReviewers()` run: the cache
afterwards, the `reviewers` state it set, the `error` state, and whether
the network (`getValidReviewersV2`) was called. -/
structure ReviewersOutcome where
  cache : ReviewersCache
  reviewersState : List String
  errorState : Option String
  networkCalled : Bool
deriving DecidableEq, Repr

/-- `fetchReviewers` (source lines 93-139): an empty id resets the list; a
cached entry younger than `CACHE_TTL` is adopted with no network call; an
absent or stale entry falls through to the network, whose result
(`response.validReviewers || []`) is written back with the current time;
a network failure sets the error state and clears the list.  `now` is
`Date.now()`; `api` is what `getValidReviewersV2` would settle to, with
`Option` for a response lacking `validReviewers`. -/
def fetchReviewers (requestId : String) (cache : ReviewersCache) (now : Nat)
    (api : Except String (Option (List String))) : ReviewersOutcome :=
  if requestId = "" then
    { cache := cache, reviewersState := [], errorState := none, networkCalled := false }
  else
    let cached := cacheGet cache requestId
    match cached with
    | some entry =>
      if now - entry.timestamp < CACHE_TTL then
        { cache := cache, reviewersState := entry.data, errorState := none,
          networkCalled := false }
      else
        match api with
        | Except.ok v =>
          let reviewersList := v.getD []
          { cache := cacheSet cache requestId { data := reviewersList, timestamp := now },
            reviewersState := reviewersList, errorState := none, networkCalled := true }
        | Except.error msg =>
          { cache := cache, reviewersState := [],
            errorState := some (if msg = "" then "Failed to fetch reviewers" else msg),
            networkCalled := true }
    | none =>
      match api with
      | Except.ok v =>
        let reviewersList := v.getD []
        { cache := cacheSet cache requestId { data := reviewersList, timestamp := now },
          reviewersState := reviewersList, errorState := none, networkCalled := true }
      | Except.error msg =>
        { cache := cache, reviewersState := [],
          errorState := some (if msg = "" then "Failed to fetch reviewers" else msg),
          networkCalled := true }

/-! ## Feature-flag store (source: src/unnamed/part_004)

`getFeatureFlag` / `clearFeatureFlag` with `localStorage` passed in
explicitly and the dispatched `unite:feature-flag-changed` events returned
to the caller. -/

/-- The `FeatureFlag` enum (source lines 40-52). -/
inductive FeatureFlag where
  | v2RequestFlow
  | permissionBasedUI
  | broadcastVisibility
  | identityReschedule
deriving DecidableEq, Repr

/-- The string value of each enum member. -/
def FeatureFlag.value : FeatureFlag → String
  | .v2RequestFlow => "v2_request_flow"
  | .permissionBasedUI => "permission_based_ui"
  | .broadcastVisibility => "broadcast_visibility"
  | .identityReschedule => "identity_reschedule"

/-- `DEFAULT_FLAGS` (source lines 58-63): every flag defaults to false. -/
def DEFAULT_FLAGS : FeatureFlag → Bool := fun _ => false

/-- `ENV_FLAG_VALUES` (source lines 66-71): the build-time environment
snapshot, a per-flag optional string fixed at bundle time. -/
structure FlagEnv where
  envValue : FeatureFlag → Option String

/-- The browser `localStorage` relevant to flags, keyed by storage key;
`Storage` keys are unique. -/
abbrev FlagStore := List (String × String)

/-- `getStorageKey(flag)` (source lines 77-81). -/
def getStorageKey (flag : FeatureFlag) : String :=
  "unite_feature_" ++ flag.value

/-- `getFeatureFlag(flag)` (source lines 98-120): a stored value (even `""`
— the source tests `!== null`) wins and enables iff it is `"true"`; else a
defined env value enables iff `"true"`; else the hardcoded default. -/
def getFeatureFlag (env : FlagEnv) (store : FlagStore) (flag : FeatureFlag) : Bool :=
  match store.lookup (getStorageKey flag) with
  | some storedValue => storedValue = "true"
  | none =>
    match env.envValue flag with
    | some envValue => envValue = "true"
    | none => DEFAULT_FLAGS flag

/-- One `unite:feature-flag-changed` event detail `{flag, enabled}`. -/
structure FlagEvent where
  flag : FeatureFlag
  enabled : Bool
deriving DecidableEq, Repr

/-- `clearFeatureFlag(flag)` (source lines 146-157):
`localStorage.removeItem` then one synchronous event whose `enabled` is the
value `getFeatureFlag` resolves after the removal.  Returns the storage
afterwards and the events dispatched by this call. -/
def clearFeatureFlag (env : FlagEnv) (store : FlagStore) (flag : FeatureFlag) :
    FlagStore × List FlagEvent :=
  let store' := store.filter fun p => p.1 ≠ getStorageKey flag
  (store', [{ flag := flag, enabled := getFeatureFlag env store' flag }])

/-- How many notifications a `useFeatureFlag(flag)` subscriber receives
from a batch of dispatched events: its handler reacts exactly to events
whose `detail.flag` equals its own flag (source lines 193-206). -/
def subscriberNotifications (events : List FlagEvent) (flag : FeatureFlag) : Nat :=
  (events.filter fun ev => ev.flag = flag).length

/-! ## Declarative allowed-actions walk (source: `useAllowedActionSet`,
src/unnamed/part_011 lines 923-994)

The walker receives untyped JSON from the network, modelled as a finite
tree (network JSON is acyclic).  The discovered set is an insertion-ordered
duplicate-free list, mirroring a JS `Set`'s iteration order. -/

/-- A JSON value as delivered by the network. -/
inductive Json where
  | null
  | bool (b : Bool)
  | num (n : Int)
  | str (s : String)
  | arr (elems : List Json)
  | obj (fields : List (String × Json))
deriving Repr

/-- JS truthiness of a JSON value (arrays and objects are always truthy;
`NaN` does not arise in parsed numeric literals we consider). -/
def Json.truthy : Json → Bool
  | .null => false
  | .bool b => b
  | .num n => n ≠ 0
  | .str s => s ≠ ""
  | .arr _ => true
  | .obj _ => true

/-- JS property access `node[key]`: a named property of an object, or
`undefined` (`none`) on arrays and primitives.  Parsed JSON objects have
unique keys, so first-match lookup is exact. -/
def Json.get? : Json → String → Option Json
  | .obj fields, key => fields.lookup key
  | _, _ => none

/-- `normalizeActionName(name)` (source part_011 lines 849-850):
`typeof name === "string" ? name.trim().toLowerCase() : ""`. -/
def normalizeActionName : Json → String
  | .str s => jsToLowerCase (jsTrim s)
  | _ => ""

/-- Modelled from the spec: the `BOOLEAN_FLAG_TO_ACTION` table is imported
from `event-card.constants`, a module absent from the sources; per spec
§4.4 it maps boolean flags (`canAccept`, `canReject`, etc.) to action
names. -/
def BOOLEAN_FLAG_TO_ACTION : List (String × String) :=
  [("canAccept", "accept"),
   ("canReject", "reject"),
   ("canReschedule", "reschedule"),
   ("canConfirm", "confirm"),
   ("canDecline", "decline"),
   ("canCancel", "cancel")]

/-- `Set.add`: append when absent, keep otherwise. -/
def setAdd (s : List String) (x : String) : List String :=
  if x ∈ s then s else s ++ [x]

/-- Ingest one `allowedActions`-style candidate (source lines 938-950):
when it is an array, add every normalized, non-empty action name. -/
def ingestActions (s : List String) (candidate : Option Json) : List String :=
  match candidate with
  | some (.arr elems) =>
    elems.foldl
      (fun acc action =>
        let normalized := normalizeActionName action
        if normalized ≠ "" then setAdd acc normalized else acc)
      s
  | _ => s

/-- Ingest the boolean permission flags (source lines 952-959): for each
table row, add the action when `node[flag]` is truthy. -/
def ingestFlags (s : List String) (node : Json) : List String :=
  BOOLEAN_FLAG_TO_ACTION.foldl
    (fun acc row =>
      match node.get? row.1 with
      | some v => if v.truthy then setAdd acc row.2 else acc
      | none => acc)
    s

/-- The body of `visit(node, depth, maxDepth)` (source lines 934-986),
structured on the remaining depth budget `maxDepth + 1 - depth` (the
source's guard `depth > maxDepth` is exactly "the budget is 0", and each
recursive call at `depth + 1` spends one unit).  As in the source: ingest
the three candidate arrays and the boolean flags; recurse into every
element of an array node and stop; otherwise recurse into `event`,
`reviewer`, `rescheduleProposal.proposedBy` and the `decisionHistory`
elements, then into every truthy object/array-valued property.  The
source's reference-inequality guards (`node.event !== node`) always pass
on tree-shaped data — a strict subterm is never the term itself — so they
have no counterpart here. -/
def visitAux : Nat → Json → List String → List String
  | 0, _, s => s
  | remaining + 1, node, s =>
    if !node.truthy then s
    else
      let s := ingestActions s (node.get? "allowedActions")
      let s := ingestActions s (node.get? "allowed_actions")
      let s := ingestActions s (node.get? "allowed_actions_list")
      let s := ingestFlags s node
      match node with
      | .arr elems => elems.foldl (fun acc el => visitAux remaining el acc) s
      | _ =>
        let s :=
          match node.get? "event" with
          | some ev => if ev.truthy then visitAux remaining ev s else s
          | none => s
        let s :=
          match node.get? "reviewer" with
          | some rv => if rv.truthy then visitAux remaining rv s else s
          | none => s
        let s :=
          match node.get? "rescheduleProposal" with
          | some rp =>
            if rp.truthy then
              match rp.get? "proposedBy" with
              | some pb => if pb.truthy then visitAux remaining pb s else s
              | none => s
            else s
          | none => s
        let s :=
          match node.get? "decisionHistory" with
          | some (.arr dhs) => dhs.foldl (fun acc dh => visitAux remaining dh acc) s
          | _ => s
        match node with
        | .obj fields =>
          fields.foldl
            (fun acc kv =>
              if !kv.2.truthy then acc
              else
                match kv.2 with
                | .obj _ => visitAux remaining kv.2 acc
                | .arr _ => visitAux remaining kv.2 acc
                | _ => acc)
            s
        | _ => s

/-- `visit(node, depth, maxDepth)` with the source's counting-up depth
parameters. -/
def visit (node : Json) (depth maxDepth : Nat) (s : List String) : List String :=
  visitAux (maxDepth + 1 - depth) node s

/-- `useAllowedActionSet({request, fullRequest, resolvedRequest})` (source
lines 923-994): walk the three payload members, each from depth 0 with
`maxDepth = 4`, into one shared set. -/
def useAllowedActionSet (request fullRequest resolvedRequest : Json) : List String :=
  let s : List String := []
  let s := visit request 0 4 s
  let s := visit fullRequest 0 4 s
  let s := visit resolvedRequest 0 4 s
  s

/-- A response object whose only `allowedActions` array sits six object
levels deep (spec §8 test 7's shape). -/
def deepSixPayload : Json :=
  .obj [("level1", .obj [("level2", .obj [("level3", .obj [("level4",
    .obj [("level5", .obj [("level6",
      .obj [("allowedActions", .arr [.str "accept"])])])])])])])]

/-- The same carrier object at four levels deep — inside the depth bound. -/
def depthFourPayload : Json :=
  .obj [("level1", .obj [("level2", .obj [("level3", .obj [("level4",
    .obj [("allowedActions", .arr [.str "accept"])])])])])]

/-- A shallow payload exercising normalization and deduplication: raw
names that trim/lowercase to duplicates, a non-string entry, and an empty
name. -/
def normalizationPayload : Json :=
  .obj [("allowedActions",
    .arr [.str " Accept ", .str "accept", .str "REJECT", .num 5, .str ""])]

/-! ## Helper lemmas -/

theorem filter_pair (p : String → Bool) (a b : String) :
    List.filter p [a, b] = (if p a then [a] else []) ++ (if p b then [b] else []) := by
  cases ha : p a <;> cases hb : p b <;> simp [List.filter, ha, hb]

theorem filter_single (p : String → Bool) (a : String) :
    List.filter p [a] = if p a then [a] else [] := by
  cases ha : p a <;> simp [List.filter, ha]

theorem ite_and_nil (c d : Bool) (x : List String) :
    (if c && d then x else []) = if c then (if d then x else []) else [] := by
  cases c <;> simp

/-- The central characterization: on a non-null request,
`getAvailableActionsV2` is exactly the status-gated candidate list filtered
by the viewer's per-action capability check. -/
theorem getAvailableActionsV2_eq_candidates_filter (u : UserWithPermissions)
    (req : RequestV2) :
    getAvailableActionsV2 u (some req) =
      (candidateActions (req.status.map jsToLowerCase)).filter
        (fun a => canPerformRequestActionV2 u a) := by
  unfold getAvailableActionsV2 candidateActions
  simp only [List.filter_append,
    apply_ite (List.filter (fun a => canPerformRequestActionV2 u a)),
    List.filter_nil, filter_pair, filter_single, ite_and_nil, List.nil_append]
  simp only [decide_eq_true_eq]

theorem canPerform_accept (u : UserWithPermissions) :
    canPerformRequestActionV2 u "accept" = hasCapability u "request.review" := rfl

theorem canPerform_reject (u : UserWithPermissions) :
    canPerformRequestActionV2 u "reject" = hasCapability u "request.review" := rfl

theorem canPerform_confirm (u : UserWithPermissions) :
    canPerformRequestActionV2 u "confirm" = hasCapability u "request.update" := rfl

theorem canPerform_decline (u : UserWithPermissions) :
    canPerformRequestActionV2 u "decline" = hasCapability u "request.update" := rfl

theorem canPerform_reschedule (u : UserWithPermissions) :
    canPerformRequestActionV2 u "reschedule" = hasCapability u "request.update" := rfl

/-! ## Claim C1 -/

/-- C1, amended: `getAvailableActionsV2` returns exactly the status-gated
candidate actions intersected with the viewer's capability-satisfied
actions, where the statuses recognized are the code's spellings
(case-insensitively): `pending_approval` / `pending review` gate
accept+reject for a `request.review` holder, `reschedule_requested` /
`pending_reschedule` gate confirm+decline for a `request.update` holder,
`approved` with `request.update` offers reschedule but never
confirm/decline, and `rejected` offers no actions regardless of
capability.  (The hyphenated `pending-review` / `review-rescheduled`
spellings of the claim are not recognized — see the counterexample.) -/
theorem c1_status_gated_actions :
    (∀ (u : UserWithPermissions) (req : RequestV2),
      getAvailableActionsV2 u (some req) =
        (candidateActions (req.status.map jsToLowerCase)).filter
          (fun a => canPerformRequestActionV2 u a))
    ∧ (∀ (u : UserWithPermissions) (st : String),
        (jsToLowerCase st = "pending_approval" ∨ jsToLowerCase st = "pending review") →
        hasCapability u "request.review" = true →
        "accept" ∈ getAvailableActionsV2 u (some ⟨some st⟩) ∧
        "reject" ∈ getAvailableActionsV2 u (some ⟨some st⟩))
    ∧ (∀ (u : UserWithPermissions) (st : String),
        (jsToLowerCase st = "reschedule_requested" ∨ jsToLowerCase st = "pending_reschedule") →
        hasCapability u "request.update" = true →
        "confirm" ∈ getAvailableActionsV2 u (some ⟨some st⟩) ∧
        "decline" ∈ getAvailableActionsV2 u (some ⟨some st⟩))
    ∧ (∀ (u : UserWithPermissions) (st : String),
        jsToLowerCase st = "approved" →
        hasCapability u "request.update" = true →
        "reschedule" ∈ getAvailableActionsV2 u (some ⟨some st⟩) ∧
        "confirm" ∉ getAvailableActionsV2 u (some ⟨some st⟩) ∧
        "decline" ∉ getAvailableActionsV2 u (some ⟨some st⟩))
    ∧ (∀ (u : UserWithPermissions) (st : String),
        jsToLowerCase st = "rejected" →
        getAvailableActionsV2 u (some ⟨some st⟩) = []) := by
  refine ⟨getAvailableActionsV2_eq_candidates_filter, ?_, ?_, ?_, ?_⟩
  · intro u st hst hcap
    have h := getAvailableActionsV2_eq_candidates_filter u ⟨some st⟩
    simp only [Option.map_some'] at h
    have hcand : candidateActions (some (jsToLowerCase st)) = ["accept", "reject", "cancel"] := by
      rcases hst with h' | h' <;> rw [h'] <;> decide
    rw [h, hcand]
    constructor <;>
      exact List.mem_filter.mpr
        ⟨by decide, by simpa [canPerform_accept, canPerform_reject] using hcap⟩
  · intro u st hst hcap
    have h := getAvailableActionsV2_eq_candidates_filter u ⟨some st⟩
    simp only [Option.map_some'] at h
    have hcand : candidateActions (some (jsToLowerCase st)) = ["confirm", "decline", "cancel"] := by
      rcases hst with h' | h' <;> rw [h'] <;> decide
    rw [h, hcand]
    constructor <;>
      exact List.mem_filter.mpr
        ⟨by decide, by simpa [canPerform_confirm, canPerform_decline] using hcap⟩
  · intro u st hst hcap
    have h := getAvailableActionsV2_eq_candidates_filter u ⟨some st⟩
    simp only [Option.map_some'] at h
    have hcand : candidateActions (some (jsToLowerCase st)) = ["cancel", "reschedule"] := by
      rw [hst]; decide
    rw [h, hcand]
    refine ⟨List.mem_filter.mpr ⟨by decide, by simpa [canPerform_reschedule] using hcap⟩, ?_, ?_⟩ <;>
      · intro hmem
        have := (List.mem_filter.mp hmem).1
        simp at this
  · intro u st hst
    have h := getAvailableActionsV2_eq_candidates_filter u ⟨some st⟩
    simp only [Option.map_some'] at h
    have hcand : candidateActions (some (jsToLowerCase st)) = [] := by rw [hst]; decide
    rw [h, hcand]
    rfl

/-- C1 counterexample: the status `"pending-review"` — the claim's own
case/spacing family — is not recognized by the code: a viewer holding
`request.review` is offered nothing on it, in particular not `accept`. -/
theorem c1_counterexample :
    hasCapability reviewUser "request.review" = true ∧
    getAvailableActionsV2 reviewUser (some ⟨some "pending-review"⟩) = [] ∧
    "accept" ∉ getAvailableActionsV2 reviewUser (some ⟨some "pending-review"⟩) := by
  decide

/-- C1 witness: the amended theorem applied at concrete inputs. -/
theorem c1_witness :
    ("accept" ∈ getAvailableActionsV2 reviewUser (some ⟨some "Pending Review"⟩) ∧
      "reject" ∈ getAvailableActionsV2 reviewUser (some ⟨some "Pending Review"⟩)) ∧
    ("reschedule" ∈ getAvailableActionsV2 updateUser (some ⟨some "Approved"⟩) ∧
      "confirm" ∉ getAvailableActionsV2 updateUser (some ⟨some "Approved"⟩) ∧
      "decline" ∉ getAvailableActionsV2 updateUser (some ⟨some "Approved"⟩)) ∧
    getAvailableActionsV2 starUser (some ⟨some "Rejected"⟩) = [] :=
  ⟨c1_status_gated_actions.2.1 reviewUser "Pending Review" (Or.inr (by decide)) (by decide),
   c1_status_gated_actions.2.2.2.1 updateUser "Approved" (by decide) (by decide),
   c1_status_gated_actions.2.2.2.2 starUser "Rejected" (by decide)⟩

/-! ## Claim C4 -/

/-- C4, amended: for a status outside the code's recognized spellings and
outside the non-cancellable set, `getAvailableActionsV2` (total, hence
crash-free) degrades to at most the cancel action: `["cancel"]` exactly
when the viewer holds `request.cancel`, and `[]` otherwise — not the empty
list for every viewer, as the claim stated. -/
theorem c4_unknown_status_degrades :
    ∀ (u : UserWithPermissions) (st : String),
      jsToLowerCase st ∉ recognizedActionStatuses →
      jsToLowerCase st ∉ nonCancellableStatuses →
      getAvailableActionsV2 u (some ⟨some st⟩) =
        (if canPerformRequestActionV2 u "cancel" = true then ["cancel"] else []) := by
  intro u st h1 h2
  have h := getAvailableActionsV2_eq_candidates_filter u ⟨some st⟩
  simp only [Option.map_some'] at h
  simp only [recognizedActionStatuses, List.mem_cons, List.mem_singleton, not_or,
    List.not_mem_nil] at h1
  obtain ⟨hp1, hp2, hr1, hr2, hap, -⟩ := h1
  have hnc : nonCancellableStatuses.contains (jsToLowerCase st) = false := by
    simpa [List.elem_iff] using h2
  have hcand : candidateActions (some (jsToLowerCase st)) = ["cancel"] := by
    simp [candidateActions, hp1, hp2, hr1, hr2, hap, hnc, h2]
  rw [h, hcand, filter_single]

/-- C4 counterexample: the unknown status `"in-progress"` (outside the
spec's closed status set) still offers `cancel` to a wildcard-capability
viewer, so the result is not empty for every viewer. -/
theorem c4_counterexample :
    getAvailableActionsV2 starUser (some ⟨some "in-progress"⟩) = ["cancel"] ∧
    getAvailableActionsV2 starUser (some ⟨some "in-progress"⟩) ≠ [] := by
  decide

/-- C4 witness: the amended theorem applied at a concrete unknown status. -/
theorem c4_witness :
    getAvailableActionsV2 starUser (some ⟨some "in-progress"⟩) =
      (if canPerformRequestActionV2 starUser "cancel" = true then ["cancel"] else []) :=
  c4_unknown_status_degrades starUser "in-progress" (by decide) (by decide)

/-! ## Claim C2 -/

theorem splitChars_no_sep (l : List Char) (h : ('.' : Char) ∉ l) : splitChars '.' l = [l] := by
  induction l with
  | nil => rfl
  | cons x xs ih =>
    simp only [List.mem_cons, not_or] at h
    simp [splitChars, ih h.2, Ne.symm h.1]

theorem splitChars_append (l1 l2 : List Char) (h : ('.' : Char) ∉ l1) :
    splitChars '.' (l1 ++ '.' :: l2) = l1 :: splitChars '.' l2 := by
  induction l1 with
  | nil =>
    cases hs : splitChars '.' l2 with
    | nil => simp [splitChars, hs]
    | cons a t => simp [splitChars, hs]
  | cons x xs ih =>
    simp only [List.mem_cons, not_or] at h
    rw [List.cons_append]
    rw [splitChars, ih h.2]
    simp [Ne.symm h.1]

theorem toList_dot_concat (resource action : String) :
    (resource ++ "." ++ action).toList = resource.toList ++ '.' :: action.toList := by
  show ((resource ++ ".") ++ action).data = _
  rw [String.data_append, String.data_append]
  rw [show (".".data) = ['.'] from rfl, List.append_assoc]
  rfl

theorem jsSplit_dot_concat (resource action : String)
    (hr : ('.' : Char) ∉ resource.toList) (ha : ('.' : Char) ∉ action.toList) :
    jsSplit (resource ++ "." ++ action) '.' = [resource, action] := by
  unfold jsSplit
  rw [toList_dot_concat, splitChars_append _ _ hr, splitChars_no_sep _ ha]
  rfl

/-- One permission entry grants `resource.action` exactly under the
spec's three match shapes (wildcard/exact resource × wildcard/exact
action), provided the resource name is non-empty. -/
theorem permEntryAllows_iff (resource action : String) (hr : resource ≠ "") (p : Permission) :
    permEntryAllows resource action p = true ↔
      (p.resource = "*" ∨ p.resource = resource) ∧
        ("*" ∈ p.actions ∨ action ∈ p.actions) := by
  unfold permEntryAllows
  split_ifs with h1 h2 h3
  · constructor
    · intro h; exact absurd h (by simp)
    · rintro ⟨hres, -⟩
      rcases hres with h | h
      · rw [h1] at h; exact absurd h (by decide)
      · rw [h1] at h; exact absurd h.symm hr
  · simp only [Bool.and_eq_true, Bool.or_eq_true, decide_eq_true_eq] at h2
    simp only [true_iff]
    exact ⟨Or.inl h2.1, by simpa [List.elem_iff] using h2.2⟩
  · simp only [Bool.and_eq_true, Bool.or_eq_true, decide_eq_true_eq] at h3
    simp only [true_iff]
    exact ⟨Or.inr h3.1, by simpa [List.elem_iff] using h3.2⟩
  · simp only [Bool.and_eq_true, Bool.or_eq_true, decide_eq_true_eq, not_and, not_or] at h2 h3
    constructor
    · intro h; exact absurd h (by simp)
    · rintro ⟨hres, hact⟩
      have hact' : p.actions.contains "*" = true ∨ p.actions.contains action = true := by
        rcases hact with h | h
        · exact Or.inl (by simpa [List.elem_iff] using h)
        · exact Or.inr (by simpa [List.elem_iff] using h)
      rcases hres with h | h
      · rcases hact' with h' | h' <;> [exact absurd h' (h2 h).1; exact absurd h' (h2 h).2]
      · rcases hact' with h' | h' <;> [exact absurd h' (h3 h).1; exact absurd h' (h3 h).2]

/-- C2: for a user with a granted `permissions` array and any capability of
the form `resource.action`, `hasCapability` is true iff some entry matches
by exact/wildcard resource paired with exact/wildcard action; the wildcard
set `[\x7bresource: "*", actions: ["*"]\x7d]` grants every such capability,
and `[\x7bresource: "request", actions: ["review"]\x7d]` grants the accept
and reject request actions but not cancel. -/
theorem c2_capability_wildcards :
    (∀ (u : UserWithPermissions) (ps : List Permission) (resource action : String),
      u.permissions = some ps → resource ≠ "" →
      ('.' : Char) ∉ resource.toList → ('.' : Char) ∉ action.toList →
      (hasCapability u (resource ++ "." ++ action) = true ↔
        ∃ p ∈ ps, (p.resource = "*" ∨ p.resource = resource) ∧
          ("*" ∈ p.actions ∨ action ∈ p.actions)))
    ∧ (∀ (resource action : String), resource ≠ "" →
        ('.' : Char) ∉ resource.toList → ('.' : Char) ∉ action.toList →
        hasCapability starUser (resource ++ "." ++ action) = true)
    ∧ (canPerformRequestActionV2 reviewUser "accept" = true ∧
       canPerformRequestActionV2 reviewUser "reject" = true ∧
       canPerformRequestActionV2 reviewUser "cancel" = false) := by
  have hmain : ∀ (u : UserWithPermissions) (ps : List Permission) (resource action : String),
      u.permissions = some ps → resource ≠ "" →
      ('.' : Char) ∉ resource.toList → ('.' : Char) ∉ action.toList →
      (hasCapability u (resource ++ "." ++ action) = true ↔
        ∃ p ∈ ps, (p.resource = "*" ∨ p.resource = resource) ∧
          ("*" ∈ p.actions ∨ action ∈ p.actions)) := by
    intro u ps resource action hps hr hdr hda
    have htl := toList_dot_concat resource action
    have hmem : '.' ∈ (resource ++ "." ++ action).toList := by rw [htl]; simp
    have hinc : jsIncludesChar (resource ++ "." ++ action) '.' = true := by
      simp only [jsIncludesChar, List.elem_iff]
      exact hmem
    have hne : ¬ (resource ++ "." ++ action) = "" := by
      intro h; rw [h] at hmem; simp at hmem
    rw [hasCapability]
    rw [if_neg (by simp [hinc, hne])]
    rw [jsSplit_dot_concat resource action hdr hda]
    simp only [List.headD_cons, List.drop_succ_cons, List.drop_zero, hps]
    rw [List.any_eq_true]
    constructor
    · rintro ⟨p, hp, hallow⟩
      exact ⟨p, hp, (permEntryAllows_iff resource action hr p).mp hallow⟩
    · rintro ⟨p, hp, hcond⟩
      exact ⟨p, hp, (permEntryAllows_iff resource action hr p).mpr hcond⟩
  refine ⟨hmain, ?_, by decide, by decide, by decide⟩
  intro resource action hr hdr hda
  exact (hmain starUser [{ resource := "*", actions := ["*"] }] resource action rfl hr hdr hda).mpr
    ⟨{ resource := "*", actions := ["*"] }, by simp, Or.inl rfl, Or.inl (by simp)⟩

/-- C2 witness: the characterization at `request.review` for the
review-only user, and a wildcard grant for an arbitrary capability. -/
theorem c2_witness :
    (hasCapability reviewUser ("request" ++ "." ++ "review") = true ↔
      ∃ p ∈ [({ resource := "request", actions := ["review"] } : Permission)],
        (p.resource = "*" ∨ p.resource = "request") ∧
          ("*" ∈ p.actions ∨ "review" ∈ p.actions)) ∧
    hasCapability starUser ("organization" ++ "." ++ "delete") = true :=
  ⟨c2_capability_wildcards.1 reviewUser
      [{ resource := "request", actions := ["review"] }] "request" "review"
      rfl (by decide) (by decide) (by decide),
   c2_capability_wildcards.2.1 "organization" "delete" (by decide) (by decide) (by decide)⟩

/-! ## Claim C6 -/

/-- C6, amended: `handleV2Response` returns exactly the envelope's data for
every success envelope (any data, including `undefined`, `[]`, `\x7b\x7d`),
and for failure envelopes throws the envelope's message when it is present
and non-empty, and the non-empty default `"API request failed"` when the
message is missing — or present but empty, the case the original claim
missed. -/
theorem c6_envelope_unwrap :
    ∀ (α : Type) (r : V2ApiResponse α),
      (r.success = true → handleV2Response r = Except.ok r.data)
      ∧ (r.success = false → ∀ m : String, r.message = some m → m ≠ "" →
          handleV2Response r = Except.error m)
      ∧ (r.success = false → (r.message = none ∨ r.message = some "") →
          handleV2Response r = Except.error "API request failed")
      ∧ ("API request failed" : String) ≠ "" := by
  intro α r
  refine ⟨?_, ?_, ?_, by decide⟩
  · intro hs; simp [handleV2Response, hs]
  · intro hs m hm hne
    simp [handleV2Response, hs, jsOrDefault, hm, hne]
  · intro hs hm
    rcases hm with h | h <;> simp [handleV2Response, hs, jsOrDefault, h]

/-- C6 counterexample: an envelope whose `message` field is present but
empty throws the default string, not the (empty) message field — `||`
treats the empty string as absent. -/
theorem c6_counterexample :
    ({ success := false, message := some "", data := none } : V2ApiResponse Nat).message =
      some "" ∧
    handleV2Response ({ success := false, message := some "", data := none } : V2ApiResponse Nat) =
      Except.error "API request failed" ∧
    ("API request failed" : String) ≠ "" := by
  refine ⟨rfl, ?_, by decide⟩
  rfl

/-- C6 witness: the amended theorem at concrete envelopes. -/
theorem c6_witness :
    handleV2Response
        ({ success := true, message := none, data := some [] } : V2ApiResponse (List Nat)) =
      Except.ok (some []) ∧
    handleV2Response
        ({ success := true, message := none, data := none } : V2ApiResponse (List Nat)) =
      Except.ok none ∧
    handleV2Response ({ success := false, message := some "m", data := none } : V2ApiResponse Nat) =
      Except.error "m" ∧
    handleV2Response ({ success := false, message := none, data := none } : V2ApiResponse Nat) =
      Except.error "API request failed" :=
  ⟨(c6_envelope_unwrap (List Nat) _).1 rfl,
   (c6_envelope_unwrap (List Nat) _).1 rfl,
   (c6_envelope_unwrap Nat _).2.1 rfl "m" rfl (by decide),
   (c6_envelope_unwrap Nat _).2.2.1 rfl (Or.inl rfl)⟩

/-! ## Claim C5 -/

/-- C5: executing `reschedule` with no `proposedDate` fails fast in both
layers: `executeRequestActionV2` settles to its descriptive error with zero
transport calls, and the hook's `executeAction` also makes zero transport
calls, rejects with a non-empty message, records exactly that message in
its error state, and dispatches no events. -/
theorem c5_reschedule_precondition :
    ∀ (α : Type) (requestId : String) (note : Option String) (transport : V2ApiResponse α),
      executeRequestActionV2 requestId
          { action := "reschedule", note := note, proposedDate := none } transport =
        (Except.error "proposedDate is required for reschedule action", 0)
      ∧ (executeAction requestId "reschedule" { note := note, proposedDate := none }
          transport).transportCalls = 0
      ∧ ∃ msg : String, msg ≠ "" ∧
          (executeAction requestId "reschedule" { note := note, proposedDate := none }
            transport).result = Except.error msg ∧
          (executeAction requestId "reschedule" { note := note, proposedDate := none }
            transport).errorState = some msg ∧
          (executeAction requestId "reschedule" { note := note, proposedDate := none }
            transport).eventsDispatched = [] := by
  intro α requestId note transport
  have hsvc : executeRequestActionV2 requestId
      { action := "reschedule", note := note, proposedDate := none } transport =
      (Except.error "proposedDate is required for reschedule action", 0) := by
    simp [executeRequestActionV2, jsTruthy]
  refine ⟨hsvc, ?_⟩
  by_cases hid : requestId = ""
  · refine ⟨by simp [executeAction, hid], "Request ID is required", by decide, ?_, ?_, ?_⟩ <;>
      simp [executeAction, hid]
  · refine ⟨?_, "Proposed date is required for reschedule action", by decide, ?_, ?_, ?_⟩ <;>
      simp [executeAction, hid, jsTruthy]

/-- C5 witness: the theorem at a concrete request id and transport. -/
theorem c5_witness :
    executeRequestActionV2 "req-1"
        { action := "reschedule", note := none, proposedDate := none }
        ({ success := true, message := none, data := some 0 } : V2ApiResponse Nat) =
      (Except.error "proposedDate is required for reschedule action", 0) ∧
    (executeAction "req-1" "reschedule" { note := none, proposedDate := none }
      ({ success := true, message := none, data := some 0 } : V2ApiResponse Nat)).transportCalls
      = 0 :=
  ⟨(c5_reschedule_precondition Nat "req-1" none _).1,
   (c5_reschedule_precondition Nat "req-1" none _).2.1⟩

/-! ## Claim C7 -/

theorem toDigitsCore_length_le (b : Nat) :
    ∀ (fuel n : Nat) (l : List Char), l.length ≤ (Nat.toDigitsCore b fuel n l).length := by
  intro fuel
  induction fuel with
  | zero => intro n l; simp [Nat.toDigitsCore]
  | succ f ih =>
    intro n l
    rw [Nat.toDigitsCore]
    split
    · simp
    · exact le_trans (by simp) (ih _ _)

/-- The decimal rendering of a natural number is never the empty string. -/
theorem toString_nat_ne_empty (n : Nat) : toString n ≠ "" := by
  intro h
  have hd : (toString n).data = [] := by rw [h]
  have hlen : 1 ≤ (Nat.toDigits 10 n).length := by
    rw [Nat.toDigits, Nat.toDigitsCore]
    split
    · simp
    · exact le_trans (by simp) (toDigitsCore_length_le 10 _ _ _)
  have : (toString n).data = Nat.toDigits 10 n := rfl
  rw [this] at hd
  rw [hd] at hlen
  simp at hlen

theorem mem_appendStrParam (ps : List (String × String)) (key : String) (v : Option String)
    (kv : String × String) :
    kv ∈ appendStrParam ps key v ↔
      kv ∈ ps ∨ ∃ s, v = some s ∧ s ≠ "" ∧ kv = (key, s) := by
  cases v with
  | none => simp [appendStrParam]
  | some s => by_cases hs : s = "" <;> simp [appendStrParam, hs]

theorem mem_appendNumParam (ps : List (String × String)) (key : String) (v : Option Nat)
    (kv : String × String) :
    kv ∈ appendNumParam ps key v ↔
      kv ∈ ps ∨ ∃ n, v = some n ∧ n ≠ 0 ∧ kv = (key, toString n) := by
  cases v with
  | none => simp [appendNumParam]
  | some n => by_cases hn : n = 0 <;> simp [appendNumParam, hn]

theorem keys_appendStrParam (ps : List (String × String)) (key : String) (v : Option String) :
    (appendStrParam ps key v).map Prod.fst =
      ps.map Prod.fst ++ (if jsTruthy v then [key] else []) := by
  cases v with
  | none => simp [appendStrParam, jsTruthy]
  | some s => by_cases hs : s = "" <;> simp [appendStrParam, jsTruthy, hs]

theorem keys_appendNumParam (ps : List (String × String)) (key : String) (v : Option Nat) :
    (appendNumParam ps key v).map Prod.fst =
      ps.map Prod.fst ++ (if jsTruthyNat v then [key] else []) := by
  cases v with
  | none => simp [appendNumParam, jsTruthyNat]
  | some n => by_cases hn : n = 0 <;> simp [appendNumParam, jsTruthyNat, hn]

theorem singleton_append_ite (c : Bool) (a : String) (x : List String) :
    (if c then [a] else []) ++ x = if c then a :: x else x := by
  cases c <;> simp

/-- C7: the query built by `fetchEventRequestsV2` never contains an empty
value or an unrecognized key; its keys are exactly the recognized filter
keys holding meaningful (JS-truthy) values, in the source's order; and the
spec's three concrete examples render as claimed. -/
theorem c7_query_serialization :
    (∀ (f : V2RequestFilters) (kv : String × String), kv ∈ buildQueryParamsV2 f →
      kv.2 ≠ "" ∧ kv.1 ∈ recognizedFilterKeys)
    ∧ (∀ f : V2RequestFilters,
        (buildQueryParamsV2 f).map Prod.fst =
          recognizedFilterKeys.filter (filterKeyMeaningful f))
    ∧ renderQuery (buildQueryParamsV2 { status := some "approved" }) = "status=approved"
    ∧ renderQuery (buildQueryParamsV2 { status := none, page := some 0 }) = ""
    ∧ renderQuery (buildQueryParamsV2 { category := some "Training", limit := some 0 }) =
        "category=Training" := by
  refine ⟨?_, ?_, by decide, by decide, by decide⟩
  · intro f kv h
    simp only [buildQueryParamsV2, mem_appendStrParam, mem_appendNumParam,
      List.not_mem_nil, false_or, or_assoc] at h
    rcases h with h|h|h|h|h|h|h|h|h <;>
      first
        | (obtain ⟨s, -, hs, rfl⟩ := h; exact ⟨hs, by simp [recognizedFilterKeys]⟩)
        | (obtain ⟨n, -, hn, rfl⟩ := h;
            exact ⟨toString_nat_ne_empty n, by simp [recognizedFilterKeys]⟩)
  · intro f
    simp only [buildQueryParamsV2, keys_appendStrParam, keys_appendNumParam, List.map_nil,
      List.nil_append, List.append_assoc]
    simp only [recognizedFilterKeys, List.filter_cons, List.filter_nil, filterKeyMeaningful]
    simp only [singleton_append_ite]

/-- C7 witness: the non-empty-value/recognized-key fact at a concrete
query entry. -/
theorem c7_witness :
    (("status", "approved") : String × String).2 ≠ "" ∧
    (("status", "approved") : String × String).1 ∈ recognizedFilterKeys :=
  c7_query_serialization.1 { status := some "approved" } ("status", "approved") (by decide)

/-! ## Claim C8 -/

theorem lookup_map_replace (k : String) (e : CacheEntry) :
    ∀ (cache : ReviewersCache), (cache.lookup k).isSome →
      ((cache.map fun p => if p.1 = k then (k, e) else p).lookup k) = some e := by
  intro cache
  induction cache with
  | nil => intro h; simp [List.lookup] at h
  | cons p t ih =>
    intro h
    by_cases hp : p.1 = k
    · rw [List.map_cons, if_pos hp]
      simp [List.lookup]
    · have hne : (k == p.1) = false := by simp [Ne.symm hp]
      rw [List.map_cons, if_neg hp]
      simp only [List.lookup, hne] at h
      simp only [List.lookup, hne]
      exact ih h

theorem lookup_append_last (k : String) (e : CacheEntry) :
    ∀ (cache : ReviewersCache), cache.lookup k = none →
      (cache ++ [(k, e)]).lookup k = some e := by
  intro cache
  induction cache with
  | nil => intro _; simp [List.lookup]
  | cons p t ih =>
    intro h
    rw [List.cons_append]
    cases hpk : (k == p.1) with
    | true => simp only [List.lookup, hpk] at h; simp at h
    | false =>
      simp only [List.lookup, hpk] at h
      simp only [List.lookup, hpk]
      exact ih h

theorem cacheGet_cacheSet (cache : ReviewersCache) (k : String) (e : CacheEntry) :
    cacheGet (cacheSet cache k e) k = some e := by
  unfold cacheGet cacheSet
  by_cases h : (cache.lookup k).isSome
  · rw [if_pos h]
    exact lookup_map_replace k e cache h
  · rw [if_neg h]
    exact lookup_append_last k e cache (Option.not_isSome_iff_eq_none.mp h)

/-- C8, amended: a cached reviewers entry older than the 5-minute TTL is
treated as absent by the read path (the fetch proceeds to the network),
and a fresh entry — in particular one written by a `set` just before a
read within the TTL — is adopted with no network call, so the new value
is never shadowed by a leftover; the expired entry is however not removed
by the read (see the counterexample). -/
theorem c8_ttl_lazy_expiry :
    (∀ (cache : ReviewersCache) (k : String) (e : CacheEntry) (now : Nat)
        (api : Except String (Option (List String))),
      k ≠ "" → cacheGet cache k = some e → e.timestamp + CACHE_TTL ≤ now →
      (fetchReviewers k cache now api).networkCalled = true)
    ∧ (∀ (cache : ReviewersCache) (k : String) (e : CacheEntry) (now : Nat)
        (api : Except String (Option (List String))),
      k ≠ "" → cacheGet cache k = some e → now - e.timestamp < CACHE_TTL →
      fetchReviewers k cache now api =
        { cache := cache, reviewersState := e.data, errorState := none,
          networkCalled := false })
    ∧ (∀ (cache : ReviewersCache) (k : String) (v : List String) (t now : Nat)
        (api : Except String (Option (List String))),
      k ≠ "" → now - t < CACHE_TTL →
      fetchReviewers k (cacheSet cache k { data := v, timestamp := t }) now api =
        { cache := cacheSet cache k { data := v, timestamp := t }, reviewersState := v,
          errorState := none, networkCalled := false }) := by
  refine ⟨?_, ?_, ?_⟩
  · intro cache k e now api hk hget hexp
    have hstale : ¬ (now - e.timestamp < CACHE_TTL) := by omega
    unfold fetchReviewers
    rw [if_neg hk]
    simp only [hget]
    rw [if_neg hstale]
    cases api <;> rfl
  · intro cache k e now api hk hget hfresh
    unfold fetchReviewers
    rw [if_neg hk]
    simp only [hget]
    rw [if_pos hfresh]
  · intro cache k v t now api hk hfresh
    have hget := cacheGet_cacheSet cache k { data := v, timestamp := t }
    unfold fetchReviewers
    rw [if_neg hk]
    simp only [hget]
    rw [if_pos hfresh]

/-- C8 counterexample: after an expired read whose refetch fails, the
expired entry is still present in the cache map — the read path never
removes it, contradicting the claim's "the expired entry is removed". -/
theorem c8_counterexample :
    (fetchReviewers "r1" [("r1", { data := ["a"], timestamp := 0 })] (CACHE_TTL + 1)
        (Except.error "network down")).networkCalled = true ∧
    cacheGet (fetchReviewers "r1" [("r1", { data := ["a"], timestamp := 0 })] (CACHE_TTL + 1)
        (Except.error "network down")).cache "r1" =
      some { data := ["a"], timestamp := 0 } := by
  decide

/-- C8 witness: the amended theorem's set-then-read-within-TTL clause at a
concrete cache. -/
theorem c8_witness :
    fetchReviewers "r1" (cacheSet [] "r1" { data := ["alice"], timestamp := 1000 }) 2000
        (Except.ok none) =
      { cache := cacheSet [] "r1" { data := ["alice"], timestamp := 1000 },
        reviewersState := ["alice"], errorState := none, networkCalled := false } :=
  c8_ttl_lazy_expiry.2.2 [] "r1" ["alice"] 1000 2000 (Except.ok none) (by decide) (by decide)

/-! ## Claims C9 and C10 -/

theorem lookup_filter_ne_none (key : String) :
    ∀ (store : FlagStore), ((store.filter fun p => p.1 ≠ key).lookup key) = none := by
  intro store
  induction store with
  | nil => rfl
  | cons p t ih =>
    by_cases hp : p.1 = key
    · simp only [List.filter_cons, hp]
      simpa using ih
    · simp only [List.filter_cons]
      have : (decide (p.1 ≠ key)) = true := by simp [hp]
      rw [this]
      simp only [List.lookup]
      have : (key == p.1) = false := by simp [Ne.symm hp]
      rw [this]
      exact ih

/-- C9: `getFeatureFlag` resolves strictly override > build-time env >
hardcoded default (false for every flag); with an override `"false"` over
an env default `"true"` it returns false, after `clearFeatureFlag` it
returns true, and the clear synchronously dispatches exactly one change
event carrying the flag and its newly resolved value, so a subscriber to
that flag receives exactly one notification. -/
theorem c9_flag_priority :
    (∀ (env : FlagEnv) (store : FlagStore) (flag : FeatureFlag) (v : String),
      store.lookup (getStorageKey flag) = some v →
      getFeatureFlag env store flag = decide (v = "true"))
    ∧ (∀ (env : FlagEnv) (store : FlagStore) (flag : FeatureFlag) (e : String),
      store.lookup (getStorageKey flag) = none → env.envValue flag = some e →
      getFeatureFlag env store flag = decide (e = "true"))
    ∧ (∀ (env : FlagEnv) (store : FlagStore) (flag : FeatureFlag),
      store.lookup (getStorageKey flag) = none → env.envValue flag = none →
      getFeatureFlag env store flag = false)
    ∧ (∀ flag : FeatureFlag, DEFAULT_FLAGS flag = false)
    ∧ (∀ (env : FlagEnv) (store : FlagStore) (flag : FeatureFlag),
      env.envValue flag = some "true" →
      store.lookup (getStorageKey flag) = some "false" →
      getFeatureFlag env store flag = false ∧
      getFeatureFlag env (clearFeatureFlag env store flag).1 flag = true ∧
      (clearFeatureFlag env store flag).2 = [{ flag := flag, enabled := true }] ∧
      subscriberNotifications (clearFeatureFlag env store flag).2 flag = 1) := by
  have hstored : ∀ (env : FlagEnv) (store : FlagStore) (flag : FeatureFlag) (v : String),
      store.lookup (getStorageKey flag) = some v →
      getFeatureFlag env store flag = decide (v = "true") := by
    intro env store flag v hv
    simp [getFeatureFlag, hv]
  have henv : ∀ (env : FlagEnv) (store : FlagStore) (flag : FeatureFlag) (e : String),
      store.lookup (getStorageKey flag) = none → env.envValue flag = some e →
      getFeatureFlag env store flag = decide (e = "true") := by
    intro env store flag e hs he
    simp [getFeatureFlag, hs, he]
  refine ⟨hstored, henv, ?_, fun _ => rfl, ?_⟩
  · intro env store flag hs he
    simp [getFeatureFlag, hs, he, DEFAULT_FLAGS]
  · intro env store flag henvv hstore
    have h1 : getFeatureFlag env store flag = false := by
      rw [hstored env store flag "false" hstore]; decide
    have hclear : (clearFeatureFlag env store flag).1 =
        store.filter fun p => p.1 ≠ getStorageKey flag := rfl
    have h2 : getFeatureFlag env (clearFeatureFlag env store flag).1 flag = true := by
      rw [hclear, henv env _ flag "true" (lookup_filter_ne_none _ store) henvv]
      decide
    have h2' : getFeatureFlag env (store.filter fun p => p.1 ≠ getStorageKey flag) flag =
        true := h2
    refine ⟨h1, h2, ?_, ?_⟩
    · simp only [clearFeatureFlag]
      rw [h2']
    · simp [clearFeatureFlag, subscriberNotifications]

/-- C9 witness: the override/clear scenario at a concrete store and
environment. -/
theorem c9_witness :
    getFeatureFlag ⟨fun _ => some "true"⟩
        [(getStorageKey FeatureFlag.v2RequestFlow, "false")] FeatureFlag.v2RequestFlow = false ∧
    getFeatureFlag ⟨fun _ => some "true"⟩
        (clearFeatureFlag ⟨fun _ => some "true"⟩
          [(getStorageKey FeatureFlag.v2RequestFlow, "false")] FeatureFlag.v2RequestFlow).1
        FeatureFlag.v2RequestFlow = true ∧
    (clearFeatureFlag ⟨fun _ => some "true"⟩
        [(getStorageKey FeatureFlag.v2RequestFlow, "false")] FeatureFlag.v2RequestFlow).2 =
      [{ flag := FeatureFlag.v2RequestFlow, enabled := true }] ∧
    subscriberNotifications
        (clearFeatureFlag ⟨fun _ => some "true"⟩
          [(getStorageKey FeatureFlag.v2RequestFlow, "false")] FeatureFlag.v2RequestFlow).2
        FeatureFlag.v2RequestFlow = 1 :=
  c9_flag_priority.2.2.2.2 ⟨fun _ => some "true"⟩
    [(getStorageKey FeatureFlag.v2RequestFlow, "false")] FeatureFlag.v2RequestFlow
    rfl (by decide)

/-- C10: with no token in either storage slot, a 401/403 response makes
`fetchJsonWithAuth` throw an error carrying the parsed body, the status
and `isAuthError = true`, while never clearing credentials and never
scheduling a redirect; conversely the logout-and-redirect effects can only
occur when a truthy token was present. -/
theorem c10_no_token_auth_error :
    (∀ (res : HttpResponse) (body : ParsedBody) (pathname : String),
      (res.status = 401 ∨ res.status = 403) →
      (fetchJsonWithAuth res body { localToken := none, sessionToken := none } pathname).result =
          Except.error
            { message := jsOrDefault (jsOrStr (jsOrStr body.message body.error)
                (some res.statusText)) "Request failed",
              status := res.status, body := body, isAuthError := true } ∧
        (fetchJsonWithAuth res body { localToken := none, sessionToken := none }
          pathname).clearedTokens = false ∧
        (fetchJsonWithAuth res body { localToken := none, sessionToken := none }
          pathname).redirectedTo = none)
    ∧ (∀ (res : HttpResponse) (body : ParsedBody) (storage : AuthStorage) (pathname : String),
        ((fetchJsonWithAuth res body storage pathname).clearedTokens = true ∨
          (fetchJsonWithAuth res body storage pathname).redirectedTo ≠ none) →
        jsTruthy (storedToken storage) = true) := by
  constructor
  · intro res body pathname hstatus
    have hok : res.ok = false := by
      rcases hstatus with h | h <;> simp [HttpResponse.ok, h]
    have hauth : (res.status = 401 || res.status = 403) = true := by
      rcases hstatus with h | h <;> simp [h]
    have htok : jsTruthy (storedToken { localToken := none, sessionToken := none }) = false := by
      rfl
    refine ⟨?_, ?_, ?_⟩ <;>
      simp [fetchJsonWithAuth, hok, hauth, htok, FetchError.mk.injEq]
  · intro res body storage pathname h
    by_cases hok : res.ok = true
    · simp [fetchJsonWithAuth, hok] at h
    · rw [Bool.not_eq_true] at hok
      by_cases hauth : (res.status = 401 || res.status = 403) = true
      · by_cases htok : jsTruthy (storedToken storage) = true
        · exact htok
        · rw [Bool.not_eq_true] at htok
          simp [fetchJsonWithAuth, hok, hauth, htok] at h
      · rw [Bool.not_eq_true] at hauth
        simp [fetchJsonWithAuth, hok, hauth] at h

/-- C10 witness: the theorem at a concrete 403 response with empty
storage. -/
theorem c10_witness :
    (fetchJsonWithAuth { status := 403, statusText := "Forbidden" }
        { message := some "permission denied", error := none }
        { localToken := none, sessionToken := none } "/dashboard").result =
        Except.error
          { message := "permission denied", status := 403,
            body := { message := some "permission denied", error := none },
            isAuthError := true } ∧
      (fetchJsonWithAuth { status := 403, statusText := "Forbidden" }
        { message := some "permission denied", error := none }
        { localToken := none, sessionToken := none } "/dashboard").clearedTokens = false ∧
      (fetchJsonWithAuth { status := 403, statusText := "Forbidden" }
        { message := some "permission denied", error := none }
        { localToken := none, sessionToken := none } "/dashboard").redirectedTo = none :=
  c10_no_token_auth_error.1 { status := 403, statusText := "Forbidden" }
    { message := some "permission denied", error := none } "/dashboard" (Or.inr rfl)

/-! ## Claim C3 -/

theorem setAdd_nodup {s : List String} {x : String} (h : s.Nodup) : (setAdd s x).Nodup := by
  unfold setAdd
  split
  · exact h
  · rename_i hx
    exact h.append (List.nodup_singleton x)
      (fun a ha hb => by simp at hb; subst hb; exact hx ha)

theorem foldl_nodup {α : Type} (f : List String → α → List String)
    (hf : ∀ (acc : List String) (x : α), acc.Nodup → (f acc x).Nodup) :
    ∀ (l : List α) (s : List String), s.Nodup → (l.foldl f s).Nodup := by
  intro l
  induction l with
  | nil => intro s h; exact h
  | cons x xs ih => intro s h; exact ih (f s x) (hf s x h)

theorem ingestActions_nodup (cand : Option Json) {s : List String} (h : s.Nodup) :
    (ingestActions s cand).Nodup := by
  unfold ingestActions
  match cand with
  | none => exact h
  | some (.arr elems) =>
    refine foldl_nodup _ ?_ elems s h
    intro acc x hacc
    dsimp only
    split
    · exact setAdd_nodup hacc
    · exact hacc
  | some .null | some (.bool _) | some (.num _) | some (.str _) | some (.obj _) => exact h

theorem ingestFlags_nodup (node : Json) {s : List String} (h : s.Nodup) :
    (ingestFlags s node).Nodup := by
  unfold ingestFlags
  refine foldl_nodup _ ?_ _ s h
  intro acc row hacc
  dsimp only
  match node.get? row.1 with
  | none => exact hacc
  | some v =>
    dsimp only
    split
    · exact setAdd_nodup hacc
    · exact hacc

theorem visitAux_nodup : ∀ (rem : Nat) (node : Json) (s : List String),
    s.Nodup → (visitAux rem node s).Nodup := by
  intro rem
  induction rem with
  | zero => intro node s h; exact h
  | succ rem ih =>
    have branch : ∀ (o : Option Json) (s : List String), s.Nodup →
        (match o with
         | some v => if v.truthy then visitAux rem v s else s
         | none => s).Nodup := by
      intro o s h
      match o with
      | none => exact h
      | some v =>
        dsimp only
        split
        · exact ih v s h
        · exact h
    have hrpStep : ∀ (o : Option Json) (s : List String), s.Nodup →
        (match o with
         | some rp =>
           if rp.truthy then
             (match rp.get? "proposedBy" with
              | some pb => if pb.truthy then visitAux rem pb s else s
              | none => s)
           else s
         | none => s).Nodup := by
      intro o s h
      match o with
      | none => exact h
      | some rp =>
        dsimp only
        split
        · exact branch _ _ h
        · exact h
    have hdhStep : ∀ (o : Option Json) (s : List String), s.Nodup →
        (match o with
         | some (.arr dhs) => dhs.foldl (fun acc dh => visitAux rem dh acc) s
         | _ => s).Nodup := by
      intro o s h
      match o with
      | some (.arr dhs) => exact foldl_nodup _ (fun acc x hacc => ih x acc hacc) dhs s h
      | none | some .null | some (.bool _) | some (.num _) | some (.str _)
      | some (.obj _) => exact h
    intro node s h
    rw [visitAux]
    split
    · exact h
    · have h4 : (ingestFlags (ingestActions (ingestActions (ingestActions s
          (node.get? "allowedActions")) (node.get? "allowed_actions"))
          (node.get? "allowed_actions_list")) node).Nodup :=
        ingestFlags_nodup node (ingestActions_nodup _ (ingestActions_nodup _
          (ingestActions_nodup _ h)))
      cases node with
      | arr elems =>
        refine foldl_nodup _ ?_ elems _ h4
        intro acc el hacc
        exact ih el acc hacc
      | obj fields =>
        refine foldl_nodup _ ?_ fields _
          (hdhStep _ _ (hrpStep _ _ (branch _ _ (branch _ _ h4))))
        intro acc kv hacc
        dsimp only
        split
        · exact hacc
        · split
          · exact ih _ acc hacc
          · exact ih _ acc hacc
          · exact hacc
      | null => exact h4
      | bool b => exact h4
      | num n => exact h4
      | str s' => exact h4

/-- C3: the `useAllowedActionSet` walk is total because each recursive step
spends one unit of the `maxDepth + 1 - depth` budget; consequently an
`allowedActions` array six object levels deep is not discovered (the set
stays empty), while the same carrier within the bound is; and the
collected set is always deduplicated, with discovered names normalized
(trimmed and lowercased) as the concrete payload shows. -/
theorem c3_bounded_walk :
    useAllowedActionSet deepSixPayload .null .null = []
    ∧ (∀ request fullRequest resolvedRequest : Json,
        (useAllowedActionSet request fullRequest resolvedRequest).Nodup)
    ∧ useAllowedActionSet depthFourPayload .null .null = ["accept"]
    ∧ useAllowedActionSet normalizationPayload .null .null = ["accept", "reject"] := by
  refine ⟨by decide, ?_, by decide, by decide⟩
  intro r f v
  unfold useAllowedActionSet visit
  exact visitAux_nodup _ _ _ (visitAux_nodup _ _ _ (visitAux_nodup _ _ _ List.nodup_nil))

end Unite
